import Mathlib

/-!
Verification of the MiBus backend (busbarranquilla): trip lifecycle,
credit ledger, incident reports, geometry consensus and route
recommendation.

The TypeScript controllers are embedded as pure Lean functions over an
explicit database state `Db`.  Timestamps are integers (milliseconds
since the epoch), coordinates are rationals, credit amounts are
integers.  SQL statements are modelled row by row: `UPDATE ... WHERE`
maps over the row list, `INSERT` appends, `SELECT ... rows[0]` is
`List.find?`.  The schema (`config/schema.ts`) declares primary keys
and foreign keys but no uniqueness constraint on active trips; the
embedding therefore never assumes one.
-/

namespace MiBus

/-- Error taxonomy of the HTTP controllers: 400 missing or falsy input,
400 duplicate active trip (the duplicate-trip branch of `startTrip`),
404 not found, 402 insufficient credits, 400 self-confirmation. -/
inductive ApiError where
  | validationError
  | conflict
  | notFound
  | insufficientBalance
  | badRequest
deriving DecidableEq

/-- Row of the `users` table: the fields read by the credit controller. -/
structure UserRec where
  credits : ℤ
  is_premium : Bool
  premium_expires_at : Option ℤ
  trial_expires_at : Option ℤ
deriving DecidableEq

/-- Row of `credit_transactions` (`type` is the source column name). -/
structure Tx where
  user_id : ℕ
  amount : ℤ
  type : String
  description : String
deriving DecidableEq

/-- Row of `active_trips`. -/
structure Trip where
  id : ℕ
  user_id : ℕ
  route_id : Option ℕ
  current_latitude : Option ℚ
  current_longitude : Option ℚ
  last_location_at : Option ℤ
  ended_at : Option ℤ
  credits_earned : ℤ
  is_active : Bool
deriving DecidableEq

/-- Row of `reports`: the fields used by `confirmReport`. -/
structure Report where
  id : ℕ
  user_id : ℕ
  confirmations : ℤ
  is_active : Bool
  expires_at : ℤ
deriving DecidableEq

/-- The database state shared by the controllers. -/
structure Db where
  users : List (ℕ × UserRec)
  trips : List Trip
  txs : List Tx
  reports : List Report
  nextTripId : ℕ
deriving DecidableEq

/-- First `users` row with the given id (`SELECT ... WHERE id = $1`). -/
def lookupUser (db : Db) (userId : ℕ) : Option UserRec :=
  (db.users.find? (fun p => p.1 == userId)).map Prod.snd

/-- `awardCredits` from `creditController.ts`: `UPDATE users SET credits =
credits + $1 WHERE id = $2` followed by an `INSERT` into
`credit_transactions`.  (The foreign key on `credit_transactions.user_id`
means the insert only ever commits for an existing user; theorems that
need this carry the existence hypothesis.) -/
def awardCredits (db : Db) (userId : ℕ) (amount : ℤ)
    (txType : String) (description : String) : Db :=
  { db with
    users := db.users.map (fun p =>
      if p.1 = userId then (p.1, { p.2 with credits := p.2.credits + amount }) else p),
    txs := db.txs ++ [{ user_id := userId, amount := amount,
                        type := txType, description := description }] }

/-- The `SELECT id FROM active_trips WHERE user_id = $1 AND is_active = true`
check at the start of `startTrip` — the first of the two database
round-trips of the check-then-act pair. -/
def startTripCheck (db : Db) (userId : ℕ) : Bool :=
  db.trips.any (fun t => t.user_id == userId && t.is_active)

/-- The `INSERT INTO active_trips ... RETURNING *` of `startTrip` — the
second half of the check-then-act pair.  Nothing in the schema blocks a
second active row for the same user. -/
def startTripInsert (db : Db) (userId : ℕ) (routeId : Option ℕ)
    (lat lng : ℚ) : Trip × Db :=
  let t : Trip :=
    { id := db.nextTripId, user_id := userId, route_id := routeId,
      current_latitude := some lat, current_longitude := some lng,
      last_location_at := none, ended_at := none,
      credits_earned := 0, is_active := true }
  (t, { db with trips := db.trips ++ [t], nextTripId := db.nextTripId + 1 })

/-- `startTrip` from `tripController.ts` run as one sequential request:
falsy-coordinate validation, the active-trip check, then the insert. -/
def startTrip (db : Db) (userId : ℕ) (routeId : Option ℕ)
    (lat lng : ℚ) : Except ApiError Trip × Db :=
  if lat = 0 ∨ lng = 0 then (.error .validationError, db)
  else if startTripCheck db userId then (.error .conflict, db)
  else
    let r := startTripInsert db userId routeId lat lng
    (.ok r.1, r.2)

/-- `SELECT * FROM active_trips WHERE user_id = $1 AND is_active = true`,
taking `rows[0]`. -/
def findActiveTrip (db : Db) (userId : ℕ) : Option Trip :=
  db.trips.find? (fun t => t.user_id == userId && t.is_active)

/-- Response body of `updateLocation`. -/
structure LocationResp where
  credited : Bool
  creditsEarned : ℤ
deriving DecidableEq

/-- `updateLocation` from `tripController.ts`: requires an active trip,
awards one credit when there is no `last_location_at` or at least
60000 ms elapsed since it, then updates position, `last_location_at`
and `credits_earned` on the trip row. -/
def updateLocation (db : Db) (userId : ℕ) (lat lng : ℚ) (now : ℤ) :
    Except ApiError LocationResp × Db :=
  if lat = 0 ∨ lng = 0 then (.error .validationError, db)
  else
    match findActiveTrip db userId with
    | none => (.error .notFound, db)
    | some trip =>
      let shouldAwardCredit : Bool :=
        match trip.last_location_at with
        | none => true
        | some last => decide (60000 ≤ now - last)
      let creditsEarned : ℤ :=
        trip.credits_earned + (if shouldAwardCredit then 1 else 0)
      let db1 : Db :=
        if shouldAwardCredit then
          awardCredits db userId 1 "earn" "Transmision de ubicacion en bus"
        else db
      let db2 : Db :=
        { db1 with trips := db1.trips.map (fun t =>
            if t.id = trip.id then
              { t with current_latitude := some lat, current_longitude := some lng,
                       last_location_at := some now, credits_earned := creditsEarned }
            else t) }
      (.ok { credited := shouldAwardCredit, creditsEarned := creditsEarned }, db2)

/-- `endTrip` from `tripController.ts`: requires an active trip, awards a
flat 10-credit transaction, then sets the trip inactive, stamps
`ended_at` and adds 10 to `credits_earned`. -/
def endTrip (db : Db) (userId : ℕ) (now : ℤ) : Except ApiError Trip × Db :=
  match findActiveTrip db userId with
  | none => (.error .notFound, db)
  | some trip =>
    let db1 := awardCredits db userId 10 "earn" "Viaje completado"
    let db2 : Db :=
      { db1 with trips := db1.trips.map (fun t =>
          if t.id = trip.id then
            { t with is_active := false, ended_at := some now,
                     credits_earned := t.credits_earned + 10 }
          else t) }
    (.ok { trip with is_active := false, ended_at := some now,
                     credits_earned := trip.credits_earned + 10 }, db2)

/-- Successful response of `spendCredits`: either the free premium branch
or the spent branch with the re-read balance. -/
inductive SpendResp where
  | premiumFree
  | spent (credits_remaining : ℤ)
deriving DecidableEq

/-- `spendCredits` from `creditController.ts`: validation, user lookup,
premium bypass, balance check, then decrement plus a negative `spend`
transaction.  `null > now` is false in the source, hence the `match`
on the optional expiry timestamps. -/
def spendCredits (db : Db) (userId : ℕ) (amount : ℤ) (now : ℤ) :
    Except ApiError SpendResp × Db :=
  if amount ≤ 0 then (.error .validationError, db)
  else
    match lookupUser db userId with
    | none => (.error .notFound, db)
    | some u =>
      let premiumActive : Bool :=
        u.is_premium &&
          ((match u.premium_expires_at with
            | some t => decide (now < t)
            | none => false) ||
           (match u.trial_expires_at with
            | some t => decide (now < t)
            | none => false))
      if premiumActive then (.ok .premiumFree, db)
      else if u.credits < amount then (.error .insufficientBalance, db)
      else
        let db1 : Db :=
          { db with users := db.users.map (fun p =>
              if p.1 = userId then (p.1, { p.2 with credits := p.2.credits - amount }) else p) }
        let db2 : Db :=
          { db1 with txs := db1.txs ++ [{ user_id := userId, amount := -amount,
                                          type := "spend", description := "" }] }
        (.ok (.spent (((lookupUser db2 userId).map UserRec.credits).getD 0)), db2)

/-- `SELECT * FROM reports WHERE id = $1 AND is_active = true AND
expires_at > NOW()`, taking `rows[0]`. -/
def findConfirmableReport (db : Db) (reportId : ℕ) (now : ℤ) : Option Report :=
  db.reports.find? (fun r => r.id == reportId && r.is_active && decide (now < r.expires_at))

/-- `confirmReport` from `reportController.ts`: the report must be active
and unexpired, self-confirmation is rejected, the counter is
incremented, and two credits go to the report's author. -/
def confirmReport (db : Db) (userId reportId : ℕ) (now : ℤ) :
    Except ApiError ℤ × Db :=
  match findConfirmableReport db reportId now with
  | none => (.error .notFound, db)
  | some report =>
    if report.user_id = userId then (.error .badRequest, db)
    else
      let db1 : Db :=
        { db with reports := db.reports.map (fun r =>
            if r.id = reportId then { r with confirmations := r.confirmations + 1 } else r) }
      let db2 := awardCredits db1 report.user_id 2 "earn" "Confirmacion de reporte"
      (.ok (report.confirmations + 1), db2)

/-- One GPS sample of a rider trace (`TracePoint` in `traceService.ts`). -/
structure TracePoint where
  lat : ℚ
  lng : ℚ
deriving DecidableEq

/-- The clustering key of `calculateSuggestedGeometry`: both coordinates
rounded to four decimal places (the `toFixed(4)` string key, idealised
over exact rationals; `toFixed` rounds half toward positive infinity,
as does `round`). -/
def cellKey (p : TracePoint) : ℤ × ℤ :=
  (round (p.lat * 10000), round (p.lng * 10000))

/-- Accumulator entry of the `groups` map in `calculateSuggestedGeometry`. -/
structure Group where
  sumLat : ℚ
  sumLng : ℚ
  count : ℕ
  firstIndex : ℕ
deriving DecidableEq

/-- One `groups.set` / update step of the `forEach` over `allPoints`: a
JavaScript `Map` updates an existing key in place and appends a fresh
key in insertion order. -/
def addPoint : List ((ℤ × ℤ) × Group) → ℕ → TracePoint → List ((ℤ × ℤ) × Group)
  | [], idx, p => [(cellKey p, { sumLat := p.lat, sumLng := p.lng, count := 1, firstIndex := idx })]
  | (k, g) :: rest, idx, p =>
    if k = cellKey p then
      (k, { g with sumLat := g.sumLat + p.lat, sumLng := g.sumLng + p.lng,
                   count := g.count + 1 }) :: rest
    else (k, g) :: addPoint rest idx p

/-- The full `allPoints.forEach((point, idx) => ...)` loop: the running
index paired with the accumulated group list. -/
def buildState (ps : List TracePoint) : ℕ × List ((ℤ × ℤ) × Group) :=
  ps.foldl (fun st p => (st.1 + 1, addPoint st.2 st.1 p)) (0, [])

/-- The group list produced by the `forEach` loop. -/
def buildGroups (ps : List TracePoint) : List ((ℤ × ℤ) × Group) :=
  (buildState ps).2

/-- Centroid of one accumulated group (`g.sumLat / g.count` in the source). -/
def groupCentroid (g : Group) : ℚ × ℚ :=
  (g.sumLat / g.count, g.sumLng / g.count)

/-- `calculateSuggestedGeometry` from `traceService.ts` as a function of
the pending traces of the route: `null` when fewer than five pending
traces exist, otherwise the centroids of the 4-decimal clusters of the
flattened point sequence, sorted by first appearance index.  (The
source's stable `Array.sort` over the distinct `firstIndex` values is
modelled by `List.insertionSort`.) -/
def calculateSuggestedGeometry (traces : List (List TracePoint)) :
    Option (List (ℚ × ℚ)) :=
  if traces.length < 5 then none
  else
    let allPoints := traces.flatten
    let values := (buildGroups allPoints).map Prod.snd
    let sorted := values.insertionSort (fun a b => a.firstIndex ≤ b.firstIndex)
    some (sorted.map groupCentroid)

/-- Status column of `route_traces`. -/
inductive TraceStatus where
  | pending
  | processed
  | discarded
deriving DecidableEq

/-- Row of `route_traces` (the fields used by the consensus batch). -/
structure TraceRec where
  points : List TracePoint
  status : TraceStatus
deriving DecidableEq

/-- Suggestion columns of a `routes` row. -/
structure RouteSuggestion where
  suggested_geometry : Option (List (ℚ × ℚ))
  has_suggestion : Bool
  suggestion_trace_count : ℕ
deriving DecidableEq

/-- `processPendingTraces` from `traceService.ts`, acting on the route's
trace rows and suggestion columns: compute the suggested geometry from
the pending traces; on `null` do nothing; otherwise publish it with the
pending-trace count and mark every pending trace processed. -/
def processPendingTraces (traces : List TraceRec) (r : RouteSuggestion) :
    RouteSuggestion × List TraceRec :=
  let pending := traces.filter (fun t => t.status == .pending)
  match calculateSuggestedGeometry (pending.map TraceRec.points) with
  | none => (r, traces)
  | some geometry =>
    ({ suggested_geometry := some geometry, has_suggestion := true,
       suggestion_trace_count := pending.length },
     traces.map (fun t => if t.status == .pending then { t with status := .processed } else t))

/-- Spec-side rendering of the consensus algorithm, following the words
of the specification: cluster keys listed in order of first appearance
across the flattened sequence. -/
def keysInOrder (ps : List TracePoint) : List (ℤ × ℤ) :=
  ps.foldl (fun acc p => if cellKey p ∈ acc then acc else acc ++ [cellKey p]) []

/-- Spec-side rendering: all points of the flattened sequence falling in
the cluster with key `k`. -/
def cluster (k : ℤ × ℤ) (ps : List TracePoint) : List TracePoint :=
  ps.filter (fun p => cellKey p = k)

/-- Spec-side rendering: the centroid (mean latitude, mean longitude) of
the cluster with key `k`. -/
def clusterCentroid (k : ℤ × ℤ) (ps : List TracePoint) : ℚ × ℚ :=
  (((cluster k ps).map TracePoint.lat).sum / (cluster k ps).length,
   ((cluster k ps).map TracePoint.lng).sum / (cluster k ps).length)

/-- Spec-side rendering of the whole suggested geometry: one centroid per
cluster, ordered by each cluster's first point of appearance. -/
def specSuggestedGeometry (ps : List TracePoint) : List (ℚ × ℚ) :=
  (keysInOrder ps).map (fun k => clusterCentroid k ps)

/-- Index of the first point of the flattened sequence falling in the
cluster with key `k`. -/
def firstIdx (ps : List TracePoint) (k : ℤ × ℤ) : ℕ :=
  ps.findIdx (fun p => cellKey p = k)

/-- The group record that the accumulated map associates to key `k` once
the whole flattened sequence has been processed. -/
def groupSpec (ps : List TracePoint) (k : ℤ × ℤ) : Group :=
  { sumLat := ((cluster k ps).map TracePoint.lat).sum,
    sumLng := ((cluster k ps).map TracePoint.lng).sum,
    count := (cluster k ps).length,
    firstIndex := firstIdx ps k }

/-- Fixed average speed used to turn a live-bus distance into an ETA. -/
def AVG_SPEED_KMH : ℚ := 20

/-- Maximum distance between the origin and the boarding stop. -/
def MAX_BOARDING_DIST_KM : ℚ := 1

/-- Row of `stops` as read by `recommendRoutes`. -/
structure StopRow where
  id : ℕ
  latitude : ℚ
  longitude : ℚ
  stop_order : ℤ
deriving DecidableEq

/-- A route with its ordered stops, as grouped into `routeMap`. -/
structure RouteRow where
  id : ℕ
  frequency_minutes : Option ℤ
  stops : List StopRow
deriving DecidableEq

/-- A live bus position (one row of `busesResult`). -/
structure BusRow where
  trip_id : ℕ
  route_id : ℕ
  latitude : ℚ
  longitude : ℚ
deriving DecidableEq

/-- The `activeBusResult` part of a recommendation. -/
structure ActiveBus where
  tripId : ℕ
  minutesAway : ℤ
deriving DecidableEq

/-- One emitted recommendation (the fields the claims speak about). -/
structure Recommendation where
  route_id : ℕ
  boardingStop : StopRow
  alightingStop : StopRow
  boardingDistKm : ℚ
  alightingDistKm : ℚ
  segment : List StopRow
  activeBus : Option ActiveBus
  hasLiveTracking : Bool
  estimatedArrivalMinutes : ℚ
deriving DecidableEq

/-- The linear nearest-neighbor scan of `recommendRoutes`: starting from
a candidate and its distance, keep any strictly closer element.  Used
for the boarding stop, the alighting stop and the nearest live bus. -/
def nearestScan {α : Type} (distTo : α → ℚ) (init : α × ℚ) (l : List α) : α × ℚ :=
  l.foldl (fun best s => if distTo s < best.2 then (s, distTo s) else best) init

/-- `Math.max(1, Math.round((closestDist / AVG_SPEED_KMH) * 60))`: the
live-bus distance-to-ETA conversion at the fixed 20 km/h speed. -/
def busEtaMinutes (d : ℚ) : ℤ :=
  max 1 (round (d / AVG_SPEED_KMH * 60))

/-- The body of the `for (const route of routeMap.values())` loop of
`recommendRoutes` (`recommendController.ts`): none when the route is
skipped by a `continue`, otherwise the emitted recommendation.  The
great-circle distance `haversineKm` — a pure function of four
coordinates — is abstracted as the `dist` parameter, since its
trigonometry has no computable rational form; every theorem below
holds for an arbitrary `dist`. -/
def recommendOne (dist : ℚ → ℚ → ℚ → ℚ → ℚ) (oLat oLng dLat dLng : ℚ)
    (buses : List BusRow) (route : RouteRow) : Option Recommendation :=
  match route.stops with
  | [] => none
  | s0 :: restStops =>
    if route.stops.length < 2 then none
    else
      let b := nearestScan (fun s => dist oLat oLng s.latitude s.longitude)
        (s0, dist oLat oLng s0.latitude s0.longitude) restStops
      if MAX_BOARDING_DIST_KM < b.2 then none
      else
        let sLast := route.stops.getLastD s0
        let a := nearestScan (fun s => dist dLat dLng s.latitude s.longitude)
          (sLast, dist dLat dLng sLast.latitude sLast.longitude) route.stops
        if a.1.stop_order ≤ b.1.stop_order then none
        else
          let segment := route.stops.filter (fun s =>
            b.1.stop_order ≤ s.stop_order && s.stop_order ≤ a.1.stop_order)
          let activeBuses := buses.filter (fun bu => bu.route_id == route.id)
          match activeBuses with
          | [] =>
            some { route_id := route.id, boardingStop := b.1, alightingStop := a.1,
                   boardingDistKm := b.2, alightingDistKm := a.2, segment := segment,
                   activeBus := none, hasLiveTracking := false,
                   estimatedArrivalMinutes := ((route.frequency_minutes.getD 15 : ℤ) : ℚ) }
          | b0 :: busRest =>
            let c := nearestScan (fun bu => dist b.1.latitude b.1.longitude bu.latitude bu.longitude)
              (b0, dist b.1.latitude b.1.longitude b0.latitude b0.longitude) busRest
            let minutesAway := busEtaMinutes c.2
            some { route_id := route.id, boardingStop := b.1, alightingStop := a.1,
                   boardingDistKm := b.2, alightingDistKm := a.2, segment := segment,
                   activeBus := some { tripId := c.1.trip_id, minutesAway := minutesAway },
                   hasLiveTracking := true,
                   estimatedArrivalMinutes := (minutesAway : ℚ) }

/-- `recommendRoutes`: one candidate per active route, then the final
`recommendations.sort((a, b) => a.estimatedArrivalMinutes -
b.estimatedArrivalMinutes)` ascending sort. -/
def recommendRoutes (dist : ℚ → ℚ → ℚ → ℚ → ℚ) (oLat oLng dLat dLng : ℚ)
    (routes : List RouteRow) (buses : List BusRow) : List Recommendation :=
  (routes.filterMap (recommendOne dist oLat oLng dLat dLng buses)).insertionSort
    (fun a b => a.estimatedArrivalMinutes ≤ b.estimatedArrivalMinutes)

/-! ## Concrete fixtures used by the closed theorems -/

/-- A fresh non-premium rider with the default 50 starting credits. -/
def freeUser : UserRec :=
  { credits := 50, is_premium := false, premium_expires_at := none, trial_expires_at := none }

/-- A database with one rider and no trips. -/
def dbOneUser : Db :=
  { users := [(1, freeUser)], trips := [], txs := [], reports := [], nextTripId := 1 }

/-- A database with one rider on a fresh active trip that has not yet
reported a position. -/
def tripFresh : Trip :=
  { id := 7, user_id := 1, route_id := none, current_latitude := none,
    current_longitude := none, last_location_at := none, ended_at := none,
    credits_earned := 0, is_active := true }

/-- A database with one rider on `tripFresh`. -/
def dbFreshTrip : Db :=
  { users := [(1, freeUser)], trips := [tripFresh], txs := [], reports := [], nextTripId := 8 }

/-- Claim C1 (code_bug).  The spec demands that under concurrent start
attempts by the same rider exactly one succeeds, and §5 calls a race
here a correctness bug.  `active_trips` in `config/schema.ts` carries
no uniqueness constraint, and `startTrip` is an unguarded check-then-
act across two database round-trips, so the interleaving
check₁-check₂-insert₁-insert₂ of two concurrent start requests by
rider 1 lets both checks pass on the trip-free snapshot and both
inserts commit: rider 1 ends up with two active trips.  The sequential
conflict branch itself does work (last conjunct). -/
theorem startTrip_concurrent_race :
    startTripCheck dbOneUser 1 = false ∧
    (((startTripInsert (startTripInsert dbOneUser 1 none 10 20).2 1 none 10 20).2.trips.filter
        (fun t => t.user_id == 1 && t.is_active)).length = 2) ∧
    (startTrip (startTrip dbOneUser 1 none 10 20).2 1 none 10 20).1 = .error .conflict := by
  refine ⟨rfl, rfl, rfl⟩

/-- Claim C2, counterexample.  The claim says a credit is granted if and
only if more than 60 seconds elapsed since the last credited update.
On a fresh trip, reports at t = 0 ms (credited), t = 59000 ms (not
credited) and t = 61000 ms show otherwise: at the third report more
than 60 s have elapsed since the last credited update (61000 − 0 >
60000) yet no credit is granted, because the code measures from
`last_location_at`, which every report refreshes. -/
theorem updateLocation_not_keyed_to_last_credited :
    (updateLocation dbFreshTrip 1 10 20 0).1 = .ok { credited := true, creditsEarned := 1 } ∧
    (updateLocation (updateLocation dbFreshTrip 1 10 20 0).2 1 10 20 59000).1 =
      .ok { credited := false, creditsEarned := 1 } ∧
    (updateLocation (updateLocation (updateLocation dbFreshTrip 1 10 20 0).2 1 10 20 59000).2
        1 10 20 61000).1 = .ok { credited := false, creditsEarned := 1 } ∧
    60000 < (61000 : ℤ) - 0 := by
  refine ⟨rfl, rfl, rfl, by norm_num⟩

/-- Claim C3, counterexample.  The claim says a suggested geometry is
published only when the clustering yields at least 5 output points.
Five pending traces of ten identical points each cluster into a single
cell, yet `processPendingTraces` publishes the 1-point geometry with
`trace_count = 5`: `calculateSuggestedGeometry` never checks the size
of its output. -/
theorem processPendingTraces_publishes_one_point :
    (processPendingTraces
        (List.replicate 5 { points := List.replicate 10 { lat := 1, lng := 2 }, status := .pending })
        { suggested_geometry := none, has_suggestion := false, suggestion_trace_count := 0 }).1.has_suggestion
      = true ∧
    (processPendingTraces
        (List.replicate 5 { points := List.replicate 10 { lat := 1, lng := 2 }, status := .pending })
        { suggested_geometry := none, has_suggestion := false, suggestion_trace_count := 0 }).1.suggested_geometry.map
        List.length = some 1 ∧
    (processPendingTraces
        (List.replicate 5 { points := List.replicate 10 { lat := 1, lng := 2 }, status := .pending })
        { suggested_geometry := none, has_suggestion := false, suggestion_trace_count := 0 }).1.suggestion_trace_count
      = 5 := by
  refine ⟨?_, ?_, ?_⟩ <;>
    simp [processPendingTraces, calculateSuggestedGeometry, buildGroups, buildState, addPoint,
      List.replicate, List.insertionSort, List.orderedInsert, List.filter]

/-- Claim C8, counterexample.  The claim says confirming rewards both
parties.  With rider 1's active report confirmed by rider 2, the
confirmation succeeds and exactly one credit transaction is written —
for rider 1, the reporter — and none for rider 2, the confirmer. -/
theorem confirmReport_rewards_reporter_only :
    (confirmReport
        { users := [(1, freeUser), (2, freeUser)], trips := [], txs := [],
          reports := [{ id := 1, user_id := 1, confirmations := 0, is_active := true, expires_at := 100 }],
          nextTripId := 1 } 2 1 0).1 = .ok 1 ∧
    (confirmReport
        { users := [(1, freeUser), (2, freeUser)], trips := [], txs := [],
          reports := [{ id := 1, user_id := 1, confirmations := 0, is_active := true, expires_at := 100 }],
          nextTripId := 1 } 2 1 0).2.txs =
      [{ user_id := 1, amount := 2, type := "earn", description := "Confirmacion de reporte" }] := by
  refine ⟨rfl, rfl⟩

/-! ## Helper lemmas shared by the theorems -/

/-- Updating every association-list entry with key `target` commutes with
the first-match lookup used by the controllers. -/
lemma find_map_update {α : Type} (l : List (ℕ × α)) (target uid : ℕ) (f : α → α) :
    (((l.map (fun p => if p.1 = target then (p.1, f p.2) else p)).find?
        (fun p => p.1 == uid)).map Prod.snd)
      = if target = uid then ((l.find? (fun p => p.1 == uid)).map Prod.snd).map f
        else (l.find? (fun p => p.1 == uid)).map Prod.snd := by
  induction l with
  | nil => by_cases h : target = uid <;> simp [h]
  | cons hd tl ih =>
    obtain ⟨k, v⟩ := hd
    simp only [List.map_cons]
    by_cases h1 : k = target
    · subst h1
      by_cases h2 : k = uid
      · subst h2
        simp only [if_pos rfl, List.find?, beq_self_eq_true]
        simp
      · have hb : (k == uid) = false := beq_eq_false_iff_ne.mpr h2
        simp only [if_pos rfl, if_true, List.find?, hb, ih, if_neg h2]
    · by_cases h2 : k = uid
      · subst h2
        have hne : ¬ target = k := fun h => h1 h.symm
        simp only [if_neg h1, List.find?, beq_self_eq_true, if_neg hne]
      · have hb : (k == uid) = false := beq_eq_false_iff_ne.mpr h2
        simp only [if_neg h1, List.find?, hb, ih]

/-- `awardCredits` seen through `lookupUser`: only the target's cached
counter moves, and by exactly the inserted amount. -/
lemma lookupUser_awardCredits (db : Db) (target uid : ℕ) (amt : ℤ) (ty d : String) :
    lookupUser (awardCredits db target amt ty d) uid =
      if target = uid then
        (lookupUser db uid).map (fun u => { u with credits := u.credits + amt })
      else lookupUser db uid := by
  unfold lookupUser awardCredits
  exact find_map_update db.users target uid (fun u => { u with credits := u.credits + amt })

/-- Claim C7 (confirmed): for a non-premium rider, a spend request for
more credits than the current balance fails with `InsufficientBalance`
and leaves the whole database — balance and transaction log included —
unchanged; and whatever the request, the rider's recorded balance
never becomes negative if it was not negative before. -/
theorem spendCredits_no_overdraft (db : Db) (userId : ℕ) (amount now : ℤ) (u : UserRec)
    (hu : lookupUser db userId = some u) (hnp : u.is_premium = false) :
    (0 < amount → u.credits < amount →
      spendCredits db userId amount now = (.error .insufficientBalance, db)) ∧
    (0 ≤ u.credits →
      0 ≤ (((lookupUser (spendCredits db userId amount now).2 userId).map UserRec.credits).getD 0)) := by
  by_cases hle : amount ≤ 0
  · refine ⟨fun hpos _ => absurd hpos (not_lt.mpr hle), fun hc => ?_⟩
    simp only [spendCredits, if_pos hle, hu]
    simpa using hc
  · have hmain : spendCredits db userId amount now =
        if u.credits < amount then (.error .insufficientBalance, db)
        else
          (.ok (.spent (((lookupUser
              { db with
                users := db.users.map (fun p =>
                  if p.1 = userId then (p.1, { p.2 with credits := p.2.credits - amount }) else p),
                txs := db.txs ++ [{ user_id := userId, amount := -amount,
                                    type := "spend", description := "" }] } userId).map
              UserRec.credits).getD 0)),
            { db with
              users := db.users.map (fun p =>
                if p.1 = userId then (p.1, { p.2 with credits := p.2.credits - amount }) else p),
              txs := db.txs ++ [{ user_id := userId, amount := -amount,
                                  type := "spend", description := "" }] }) := by
      simp only [spendCredits, if_neg hle, hu, hnp, Bool.false_and, Bool.false_or, if_neg]
      rfl
    by_cases hc : u.credits < amount
    · rw [hmain, if_pos hc]
      exact ⟨fun _ _ => rfl, fun h0 => by simp [hu]; exact h0⟩
    · rw [hmain, if_neg hc]
      refine ⟨fun _ hlt => absurd hlt hc, fun h0 => ?_⟩
      have hlk : lookupUser
          { db with
            users := db.users.map (fun p =>
              if p.1 = userId then (p.1, { p.2 with credits := p.2.credits - amount }) else p),
            txs := db.txs ++ [{ user_id := userId, amount := -amount,
                                type := "spend", description := "" }] } userId =
          (lookupUser db userId).map (fun x => { x with credits := x.credits - amount }) := by
        unfold lookupUser
        simpa using find_map_update db.users userId userId
          (fun x => { x with credits := x.credits - amount })
      simp only [hlk, hu, Option.map_some', Option.getD_some]
      simp only [not_lt] at hc
      simp [sub_nonneg.mpr hc]

/-- Witness for `spendCredits_no_overdraft`: rider 1 with 50 credits and
a 60-credit request. -/
theorem spendCredits_no_overdraft_witness :
    spendCredits dbOneUser 1 60 0 = (.error .insufficientBalance, dbOneUser) ∧
    0 ≤ (((lookupUser (spendCredits dbOneUser 1 60 0).2 1).map UserRec.credits).getD 0) :=
  ⟨(spendCredits_no_overdraft dbOneUser 1 60 0 freeUser rfl rfl).1 (by norm_num) (by decide),
   (spendCredits_no_overdraft dbOneUser 1 60 0 freeUser rfl rfl).2 (by decide)⟩

/-- Claim C6 (confirmed): ending a trip requires an Active trip — it
clears the active flag, stamps the end time and adds the flat
10-credit completion bonus to the trip's cumulative total with a
single matching 10-credit transaction; calling End again for the same
rider fails with `NotFound` and changes nothing, so the bonus is never
granted twice.  `huniq` is the data-model invariant that the rider has
no second active trip row. -/
theorem endTrip_bonus_once (db : Db) (userId : ℕ) (now now2 : ℤ) (t : Trip)
    (ht : findActiveTrip db userId = some t)
    (huniq : ∀ t' ∈ db.trips, t'.user_id = userId → t'.is_active = true → t'.id = t.id) :
    (endTrip db userId now).1 =
      .ok { t with is_active := false, ended_at := some now,
                   credits_earned := t.credits_earned + 10 } ∧
    (endTrip db userId now).2.txs =
      db.txs ++ [{ user_id := userId, amount := 10, type := "earn",
                   description := "Viaje completado" }] ∧
    endTrip (endTrip db userId now).2 userId now2 = (.error .notFound, (endTrip db userId now).2) := by
  have hstep : endTrip db userId now =
      (.ok { t with is_active := false, ended_at := some now,
                    credits_earned := t.credits_earned + 10 },
       { awardCredits db userId 10 "earn" "Viaje completado" with
         trips := (awardCredits db userId 10 "earn" "Viaje completado").trips.map (fun x =>
           if x.id = t.id then
             { x with is_active := false, ended_at := some now,
                      credits_earned := x.credits_earned + 10 }
           else x) }) := by
    simp only [endTrip, ht]
  have htrips : (awardCredits db userId 10 "earn" "Viaje completado").trips = db.trips := rfl
  have hfind2 : findActiveTrip (endTrip db userId now).2 userId = none := by
    rw [hstep]
    unfold findActiveTrip
    rw [List.find?_eq_none]
    intro x hx
    simp only [htrips] at hx
    rw [List.mem_map] at hx
    obtain ⟨t2, ht2, rfl⟩ := hx
    by_cases hid : t2.id = t.id
    · simp [hid]
    · simp only [if_neg hid, Bool.and_eq_true, beq_iff_eq, not_and]
      intro huser hactive
      exact hid (huniq t2 ht2 huser hactive)
  refine ⟨by rw [hstep], by rw [hstep]; rfl, ?_⟩
  set db2 := (endTrip db userId now).2 with hdb2
  simp only [endTrip, hfind2]
/-- Witness for `endTrip_bonus_once`: rider 1 ends `tripFresh` and a
second End fails with `NotFound`. -/
theorem endTrip_bonus_once_witness :
    (endTrip dbFreshTrip 1 1000).1 =
      .ok { tripFresh with is_active := false, ended_at := some 1000,
                           credits_earned := tripFresh.credits_earned + 10 } ∧
    (endTrip dbFreshTrip 1 1000).2.txs =
      dbFreshTrip.txs ++ [{ user_id := 1, amount := 10, type := "earn",
                            description := "Viaje completado" }] ∧
    endTrip (endTrip dbFreshTrip 1 1000).2 1 2000 =
      (.error .notFound, (endTrip dbFreshTrip 1 1000).2) :=
  endTrip_bonus_once dbFreshTrip 1 1000 2000 tripFresh rfl (by decide)

/-- The active report used by the confirmation theorems. -/
def reportFix : Report :=
  { id := 1, user_id := 1, confirmations := 0, is_active := true, expires_at := 100 }

/-- A database with the reporter (rider 1), a second rider, and
`reportFix`. -/
def dbReportFix : Db :=
  { users := [(1, freeUser), (2, freeUser)], trips := [], txs := [],
    reports := [reportFix], nextTripId := 1 }

/-- Claim C8, amended (corrected): confirming another rider's active,
unexpired report increments its confirmation counter by one and
rewards the original reporter with a single 2-credit transaction; the
confirming rider receives no transaction, and a rider cannot confirm
their own report. -/
theorem confirmReport_amended (db : Db) (userId reportId : ℕ) (now : ℤ) (r : Report)
    (hr : findConfirmableReport db reportId now = some r) :
    (r.user_id ≠ userId →
      (confirmReport db userId reportId now).1 = .ok (r.confirmations + 1) ∧
      (confirmReport db userId reportId now).2.reports =
        db.reports.map (fun x =>
          if x.id = reportId then { x with confirmations := x.confirmations + 1 } else x) ∧
      (confirmReport db userId reportId now).2.txs =
        db.txs ++ [{ user_id := r.user_id, amount := 2, type := "earn",
                     description := "Confirmacion de reporte" }]) ∧
    (r.user_id = userId → confirmReport db userId reportId now = (.error .badRequest, db)) := by
  constructor
  · intro hne
    simp [confirmReport, hr, hne]
    exact ⟨rfl, rfl⟩
  · intro heq
    simp only [confirmReport, hr, if_pos heq]

/-- Witness for `confirmReport_amended`: rider 2 confirms rider 1's
report; rider 1 tries to confirm their own. -/
theorem confirmReport_amended_witness :
    (confirmReport dbReportFix 2 1 0).1 = .ok (reportFix.confirmations + 1) ∧
    (confirmReport dbReportFix 2 1 0).2.txs =
      dbReportFix.txs ++ [{ user_id := reportFix.user_id, amount := 2, type := "earn",
                            description := "Confirmacion de reporte" }] ∧
    confirmReport dbReportFix 1 1 0 = (.error .badRequest, dbReportFix) :=
  ⟨((confirmReport_amended dbReportFix 2 1 0 reportFix rfl).1 (by decide)).1,
   ((confirmReport_amended dbReportFix 2 1 0 reportFix rfl).1 (by decide)).2.2,
   (confirmReport_amended dbReportFix 1 1 0 reportFix rfl).2 rfl⟩

/-- The reward transaction written by a credited position report. -/
def locationTx (userId : ℕ) : Tx :=
  { user_id := userId, amount := 1, type := "earn",
    description := "Transmision de ubicacion en bus" }

/-- Feed a list of report timestamps through `updateLocation`, collecting
the `credited` flag of each response. -/
def runReports (userId : ℕ) (lat lng : ℚ) : Db → List ℤ → List Bool × Db
  | db, [] => ([], db)
  | db, t :: ts =>
    let r := updateLocation db userId lat lng t
    let rest := runReports userId lat lng r.2 ts
    (((r.1.toOption.map LocationResp.credited).getD false) :: rest.1, rest.2)

/-- The credit schedule `updateLocation` implements: a report is credited
exactly when no report was recorded before, or at least 60 s passed
since the previous report — credited or not. -/
def gapFlags : Option ℤ → List ℤ → List Bool
  | _, [] => []
  | last, t :: ts =>
    (match last with
     | none => true
     | some l => decide (60000 ≤ t - l)) :: gapFlags (some t) ts

/-- If the first trip row satisfying `p` is `a`, every row sharing its id
is `a` itself, and the row update `g` keeps `p` on `a` while fixing
rows with other ids, then after the update the first satisfying row is
`g a`. -/
lemma find?_map_id_update (l : List Trip) (p : Trip → Bool) (a : Trip) (g : Trip → Trip)
    (h : l.find? p = some a)
    (hid : ∀ x ∈ l, x.id = a.id → x = a)
    (hpa : p (g a) = true) :
    (l.map (fun x => if x.id = a.id then g x else x)).find? p = some (g a) := by
  induction l with
  | nil => simp at h
  | cons hd tl ih =>
    cases hp : p hd with
    | true =>
      have ha : hd = a := by simpa [List.find?, hp] using h
      subst ha
      simp only [List.map_cons, if_pos rfl, if_true, List.find?, hpa]
    | false =>
      have h2 : tl.find? p = some a := by simpa [List.find?, hp] using h
      have hne : hd.id ≠ a.id := by
        intro hh
        have hda : hd = a := hid hd (List.mem_cons_self hd tl) hh
        have hpt : p a = true := List.find?_some h2
        rw [← hda, hp] at hpt
        exact Bool.false_ne_true hpt
      rw [List.map_cons, if_neg hne]
      simp only [List.find?, hp]
      exact ih h2 (fun x hx hxa => hid x (List.mem_cons_of_mem hd hx) hxa)
/-- Normal form of one `updateLocation` call on a found active trip: the
credited flag, the transaction appended when credited, and the trip row
rewritten with the new position and `last_location_at`. -/
lemma updateLocation_step (db : Db) (userId : ℕ) (lat lng : ℚ) (t0 : ℤ) (t : Trip)
    (hval : ¬(lat = 0 ∨ lng = 0)) (ht : findActiveTrip db userId = some t) :
    updateLocation db userId lat lng t0 =
      (let fl : Bool := match t.last_location_at with
        | none => true
        | some l => decide (60000 ≤ t0 - l)
       (.ok { credited := fl, creditsEarned := t.credits_earned + (if fl then 1 else 0) },
        { users := if fl then
            (awardCredits db userId 1 "earn" "Transmision de ubicacion en bus").users
          else db.users,
          trips := db.trips.map (fun x =>
            if x.id = t.id then
              { x with current_latitude := some lat, current_longitude := some lng,
                       last_location_at := some t0,
                       credits_earned := t.credits_earned + (if fl then 1 else 0) }
            else x),
          txs := db.txs ++ (if fl then [locationTx userId] else []),
          reports := db.reports, nextTripId := db.nextTripId })) := by
  simp only [updateLocation, if_neg hval, ht]
  cases hl : t.last_location_at with
  | none => rfl
  | some l =>
    by_cases hle : 60000 ≤ t0 - l
    · simp only [decide_eq_true hle, if_pos]
      rfl
    · simp only [decide_eq_false hle]
      simp
/-- An id-keyed row update preserves the property that a row's id
determines the row. -/
lemma map_id_update_unique (l : List Trip) (a : Trip) (g : Trip → Trip)
    (hgid : ∀ x, (g x).id = x.id)
    (hid : ∀ x ∈ l, x.id = a.id → x = a) :
    ∀ x ∈ l.map (fun x => if x.id = a.id then g x else x), x.id = (g a).id → x = g a := by
  intro x hx hxa
  rw [List.mem_map] at hx
  obtain ⟨x0, hx0, rfl⟩ := hx
  by_cases hida : x0.id = a.id
  · rw [hid x0 hx0 hida, if_pos rfl]
  · rw [if_neg hida]
    rw [if_neg hida, hgid a] at hxa
    exact absurd hxa hida

/-- Claim C2, amended (corrected): on an active trip a position report is
credited exactly when the trip has no recorded `last_location_at` or at
least 60 seconds elapsed since the previous report — credited or not
(`gapFlags`) — and the credited reports append exactly that many
1-credit transactions.  Hence reports less than 60 s after the
previous report are never credited, and reports spaced at least 60 s
apart are credited once each.  `hid` is the primary-key property of
the trip table. -/
theorem updateLocation_credit_schedule (userId : ℕ) (lat lng : ℚ)
    (hlat : lat ≠ 0) (hlng : lng ≠ 0) :
    ∀ (ts : List ℤ) (db : Db) (t : Trip),
      findActiveTrip db userId = some t →
      (∀ x ∈ db.trips, x.id = t.id → x = t) →
      (runReports userId lat lng db ts).1 = gapFlags t.last_location_at ts ∧
      (runReports userId lat lng db ts).2.txs =
        db.txs ++ List.replicate ((gapFlags t.last_location_at ts).count true) (locationTx userId) := by
  have hval : ¬(lat = 0 ∨ lng = 0) := by
    rintro (h | h)
    · exact hlat h
    · exact hlng h
  intro ts
  induction ts with
  | nil =>
    intro db t ht hid
    simp [runReports, gapFlags]
  | cons t0 ts ih =>
    intro db t ht hid
    have htl : db.trips.find? (fun x => x.user_id == userId && x.is_active) = some t := ht
    have hpt : (t.user_id == userId && t.is_active) = true := by
      simpa using List.find?_some htl
    rw [runReports, updateLocation_step db userId lat lng t0 t hval ht]
    simp only []
    set fl : Bool := (match t.last_location_at with
      | none => true
      | some l => decide (60000 ≤ t0 - l)) with hfl
    set t2 : Trip := ({ t with current_latitude := some lat, current_longitude := some lng,
                               last_location_at := some t0,
                               credits_earned := t.credits_earned + (if fl then 1 else 0) } : Trip)
      with ht2
    set db2 : Db :=
      ({ users := if fl then
           (awardCredits db userId 1 "earn" "Transmision de ubicacion en bus").users
         else db.users,
         trips := db.trips.map (fun x => if x.id = t.id then
           { x with current_latitude := some lat, current_longitude := some lng,
                    last_location_at := some t0,
                    credits_earned := t.credits_earned + (if fl then 1 else 0) }
           else x),
         txs := db.txs ++ (if fl then [locationTx userId] else []),
         reports := db.reports, nextTripId := db.nextTripId } : Db)
      with hdb2
    have hfind2 : findActiveTrip db2 userId = some t2 := by
      have := find?_map_id_update db.trips
        (fun x => x.user_id == userId && x.is_active) t
        (fun x => { x with current_latitude := some lat, current_longitude := some lng,
                           last_location_at := some t0,
                           credits_earned := t.credits_earned + (if fl then 1 else 0) })
        htl hid (by simpa using hpt)
      exact this
    have hid2 : ∀ x ∈ db2.trips, x.id = t2.id → x = t2 := by
      have := map_id_update_unique db.trips t
        (fun x => { x with current_latitude := some lat, current_longitude := some lng,
                           last_location_at := some t0,
                           credits_earned := t.credits_earned + (if fl then 1 else 0) })
        (fun x => rfl) hid
      exact this
    obtain ⟨ih1, ih2⟩ := ih db2 t2 hfind2 hid2
    have hlast2 : t2.last_location_at = some t0 := rfl
    have hgap : gapFlags t.last_location_at (t0 :: ts) =
        fl :: gapFlags (some t0) ts := rfl
    constructor
    · simp only [Except.toOption, Option.map_some', Option.getD_some]
      rw [ih1, hlast2, hgap]
    · rw [ih2, hlast2, hgap]
      have htxs2 : db2.txs = db.txs ++ (if fl then [locationTx userId] else []) := rfl
      rw [htxs2]
      cases fl with
      | true => simp [List.count_cons, List.replicate_succ, List.append_assoc]
      | false => simp [List.count_cons]
/-- Witness for `updateLocation_credit_schedule`: two reports 60 s apart
on the fresh trip; both are credited and two transactions are written. -/
theorem updateLocation_credit_schedule_witness :
    (runReports 1 10 20 dbFreshTrip [0, 60000]).1 =
      gapFlags tripFresh.last_location_at [0, 60000] ∧
    (runReports 1 10 20 dbFreshTrip [0, 60000]).2.txs =
      dbFreshTrip.txs ++
        List.replicate ((gapFlags tripFresh.last_location_at [0, 60000]).count true)
          (locationTx 1) :=
  updateLocation_credit_schedule 1 10 20 (by norm_num) (by norm_num)
    [0, 60000] dbFreshTrip tripFresh rfl (by decide)

/-- One ledger-touching operation: every credit grant in the backend goes
through `awardCredits`, every deduction through `spendCredits`. -/
inductive CreditOp where
  | award (userId : ℕ) (amount : ℤ) (txType : String) (description : String)
  | spendOp (userId : ℕ) (amount : ℤ) (now : ℤ)
deriving DecidableEq

/-- Apply one operation to the database, keeping its state effect. -/
def applyCreditOp (db : Db) : CreditOp → Db
  | .award uid amt ty d => awardCredits db uid amt ty d
  | .spendOp uid amt now => (spendCredits db uid amt now).2

/-- Apply a sequence of awards and spend requests. -/
def applyCreditOps (db : Db) (ops : List CreditOp) : Db :=
  ops.foldl applyCreditOp db

/-- The rider's denormalized credits counter. -/
def cachedBalance (db : Db) (uid : ℕ) : ℤ :=
  ((lookupUser db uid).map UserRec.credits).getD 0

/-- Sum of the recorded transaction amounts of one rider. -/
def txTotal (txs : List Tx) (uid : ℕ) : ℤ :=
  ((txs.filter (fun tx => tx.user_id == uid)).map Tx.amount).sum

/-- Appending transactions adds their per-rider totals. -/
lemma txTotal_append (txs l2 : List Tx) (uid : ℕ) :
    txTotal (txs ++ l2) uid = txTotal txs uid + txTotal l2 uid := by
  simp [txTotal, List.filter_append]

/-- Per-rider total of a single transaction. -/
lemma txTotal_singleton (tx : Tx) (uid : ℕ) :
    txTotal [tx] uid = if tx.user_id = uid then tx.amount else 0 := by
  by_cases h : tx.user_id = uid
  · simp [txTotal, List.filter, h]
  · simp [txTotal, List.filter, beq_eq_false_iff_ne.mpr h, h]
/-- The successful spend branch seen through `lookupUser`. -/
lemma lookupUser_spendUpdate (db : Db) (target uid : ℕ) (amt : ℤ) :
    lookupUser
      { db with
        users := db.users.map (fun p =>
          if p.1 = target then (p.1, { p.2 with credits := p.2.credits - amt }) else p),
        txs := db.txs ++ [{ user_id := target, amount := -amt,
                            type := "spend", description := "" }] } uid =
      if target = uid then
        (lookupUser db uid).map (fun u => { u with credits := u.credits - amt })
      else lookupUser db uid := by
  unfold lookupUser
  simpa using find_map_update db.users target uid
    (fun u => { u with credits := u.credits - amt })

/-- One award or spend moves the cached balance and the rider's recorded
transaction total by the same amount, and the rider row survives. -/
lemma applyCreditOp_invariant (db : Db) (op : CreditOp) (uid : ℕ)
    (hu : (lookupUser db uid).isSome) :
    cachedBalance (applyCreditOp db op) uid - txTotal (applyCreditOp db op).txs uid =
      cachedBalance db uid - txTotal db.txs uid ∧
    (lookupUser (applyCreditOp db op) uid).isSome := by
  obtain ⟨u, hu2⟩ := Option.isSome_iff_exists.mp hu
  cases op with
  | award target amt ty d =>
    have hlk := lookupUser_awardCredits db target uid amt ty d
    have htx : txTotal (applyCreditOp db (.award target amt ty d)).txs uid =
        txTotal db.txs uid + (if target = uid then amt else 0) := by
      have : (awardCredits db target amt ty d).txs =
          db.txs ++ [{ user_id := target, amount := amt, type := ty, description := d }] := rfl
      simp only [applyCreditOp, this, txTotal_append, txTotal_singleton]
    by_cases ht : target = uid
    · subst ht
      refine ⟨?_, ?_⟩
      · simp only [applyCreditOp] at htx ⊢
        rw [htx]
        simp only [cachedBalance, hlk, eq_self_iff_true, if_true, hu2,
          Option.map_some', Option.getD_some]
        ring
      · simp only [applyCreditOp, hlk, eq_self_iff_true, if_true, hu2]
        simp
    · refine ⟨?_, ?_⟩
      · simp only [applyCreditOp] at htx ⊢
        rw [htx, if_neg ht]
        simp only [cachedBalance, hlk, if_neg ht]
        ring
      · simp only [applyCreditOp, hlk, if_neg ht]
        exact hu
  | spendOp target amt now =>
    simp only [applyCreditOp, spendCredits]
    by_cases hamt : amt ≤ 0
    · simp only [if_pos hamt]
      exact ⟨by trivial, hu⟩
    · simp only [if_neg hamt]
      rcases hlu : lookupUser db target with _ | v
      · simp only [hlu]
        exact ⟨by trivial, hu⟩
      · simp only [hlu]
        by_cases hprem : (v.is_premium &&
            ((match v.premium_expires_at with
              | some t => decide (now < t)
              | none => false) ||
             (match v.trial_expires_at with
              | some t => decide (now < t)
              | none => false))) = true
        · rw [if_pos hprem]
          exact ⟨by trivial, hu⟩
        · rw [if_neg (fun h => hprem h)]
          by_cases hc : v.credits < amt
          · rw [if_pos hc]
            exact ⟨by trivial, hu⟩
          · rw [if_neg hc]
            have hlk := lookupUser_spendUpdate db target uid amt
            have htx : txTotal
                (db.txs ++ [{ user_id := target, amount := -amt,
                              type := "spend", description := "" }]) uid =
                txTotal db.txs uid + (if target = uid then -amt else 0) := by
              rw [txTotal_append, txTotal_singleton]
            by_cases ht : target = uid
            · subst ht
              refine ⟨?_, ?_⟩
              · simp only [cachedBalance, hlk, eq_self_iff_true, if_true, hu2,
                  Option.map_some', Option.getD_some, htx]
                ring
              · simp only [hlk, eq_self_iff_true, if_true, hu2]
                simp
            · refine ⟨?_, ?_⟩
              · simp only [cachedBalance, hlk, if_neg ht, htx, if_neg ht]
                ring
              · simp only [hlk, if_neg ht]
                exact hu
/-- Claim C10 (confirmed): every credit mutation records a matching
ledger entry — `awardCredits` moves the cached counter by exactly the
inserted transaction amount and a successful spend by exactly the
recorded negative amount — so after any sequence of awards and spend
requests, a rider's cached balance equals the initial balance plus the
sum of the newly recorded transaction amounts. -/
theorem ledger_matches_balance (ops : List CreditOp) (db : Db) (uid : ℕ)
    (hu : (lookupUser db uid).isSome) :
    cachedBalance (applyCreditOps db ops) uid =
      cachedBalance db uid +
        (txTotal (applyCreditOps db ops).txs uid - txTotal db.txs uid) := by
  have key : ∀ (l : List CreditOp) (d : Db), (lookupUser d uid).isSome →
      cachedBalance (applyCreditOps d l) uid - txTotal (applyCreditOps d l).txs uid =
        cachedBalance d uid - txTotal d.txs uid := by
    intro l
    induction l with
    | nil => intro d h; rfl
    | cons op rest ih =>
      intro d h
      have hstep := applyCreditOp_invariant d op uid h
      have hrest := ih (applyCreditOp d op) hstep.2
      have hfold : applyCreditOps d (op :: rest) =
          applyCreditOps (applyCreditOp d op) rest := rfl
      rw [hfold, hrest, hstep.1]
  have h := key ops db hu
  omega

/-- Witness for `ledger_matches_balance`: rider 1 starts at 50 credits,
earns 5, spends 20 and has a 100-credit request rejected. -/
theorem ledger_matches_balance_witness :
    cachedBalance
        (applyCreditOps dbOneUser
          [.award 1 5 "earn" "Reporte", .spendOp 1 20 0, .spendOp 1 100 0]) 1 =
      cachedBalance dbOneUser 1 +
        (txTotal
            (applyCreditOps dbOneUser
              [.award 1 5 "earn" "Reporte", .spendOp 1 20 0, .spendOp 1 100 0]).txs 1 -
          txTotal dbOneUser.txs 1) :=
  ledger_matches_balance
    [.award 1 5 "earn" "Reporte", .spendOp 1 20 0, .spendOp 1 100 0] dbOneUser 1 rfl

/-- Claim C3, amended (corrected): the consensus batch publishes exactly
when at least 5 pending traces exist for the route; the published
geometry is whatever centroid list the clustering yields — the code has
no minimum-output-point check — with `trace_count` equal to the number
of pending traces, all of which are marked processed. -/
theorem processPendingTraces_amended (traces : List TraceRec) (r : RouteSuggestion) :
    ((traces.filter (fun t => t.status == .pending)).length < 5 →
      processPendingTraces traces r = (r, traces)) ∧
    (5 ≤ (traces.filter (fun t => t.status == .pending)).length →
      (processPendingTraces traces r).1.has_suggestion = true ∧
      (processPendingTraces traces r).1.suggested_geometry =
        calculateSuggestedGeometry
          ((traces.filter (fun t => t.status == .pending)).map TraceRec.points) ∧
      (processPendingTraces traces r).1.suggestion_trace_count =
        (traces.filter (fun t => t.status == .pending)).length ∧
      ∀ t ∈ (processPendingTraces traces r).2, t.status ≠ .pending) := by
  constructor
  · intro h5
    have hnone : calculateSuggestedGeometry
        ((traces.filter (fun t => t.status == .pending)).map TraceRec.points) = none := by
      unfold calculateSuggestedGeometry
      rw [if_pos]
      simpa [List.length_map] using h5
    simp [processPendingTraces, hnone]
  · intro h5
    have hsome : calculateSuggestedGeometry
        ((traces.filter (fun t => t.status == .pending)).map TraceRec.points) =
        some (((buildGroups
            ((traces.filter (fun t => t.status == .pending)).map TraceRec.points).flatten).map
            Prod.snd).insertionSort (fun a b => a.firstIndex ≤ b.firstIndex) |>.map
            groupCentroid) := by
      unfold calculateSuggestedGeometry
      rw [if_neg]
      simp only [List.length_map, not_lt]
      exact h5
    refine ⟨?_, ?_, ?_, ?_⟩
    · simp only [processPendingTraces, hsome]
    · simp only [processPendingTraces, hsome]
    · simp only [processPendingTraces, hsome]
    · simp only [processPendingTraces, hsome]
      intro t htmem
      rw [List.mem_map] at htmem
      obtain ⟨t0, _, rfl⟩ := htmem
      by_cases hp : t0.status == TraceStatus.pending
      · simp [hp]
      · simp only [hp]
        simp only [Bool.false_eq_true, if_false]
        intro hcontra
        exact hp (by simp [hcontra])

/-- A pending trace of ten identical samples. -/
def pendingTraceFix : TraceRec :=
  { points := List.replicate 10 { lat := 1, lng := 2 }, status := .pending }

/-- A route with no suggestion yet. -/
def suggestionFix : RouteSuggestion :=
  { suggested_geometry := none, has_suggestion := false, suggestion_trace_count := 0 }

/-- Witness for `processPendingTraces_amended`: with no pending traces
nothing is published; with five pending traces the suggestion fires
with `trace_count` 5. -/
theorem processPendingTraces_amended_witness :
    processPendingTraces [] suggestionFix = (suggestionFix, []) ∧
    (processPendingTraces (List.replicate 5 pendingTraceFix) suggestionFix).1.has_suggestion
      = true ∧
    (processPendingTraces (List.replicate 5 pendingTraceFix) suggestionFix).1.suggestion_trace_count
      = ((List.replicate 5 pendingTraceFix).filter (fun t => t.status == .pending)).length :=
  ⟨(processPendingTraces_amended [] suggestionFix).1 (by decide),
   ((processPendingTraces_amended (List.replicate 5 pendingTraceFix) suggestionFix).2
      (by decide)).1,
   ((processPendingTraces_amended (List.replicate 5 pendingTraceFix) suggestionFix).2
      (by decide)).2.2.1⟩

/-- The linear scan never returns a larger distance than it started with. -/
lemma nearestScan_le_init {α : Type} (d : α → ℚ) :
    ∀ (l : List α) (init : α × ℚ), (nearestScan d init l).2 ≤ init.2
  | [], _ => le_refl _
  | s :: t, init => by
    have hstep : nearestScan d init (s :: t) =
        nearestScan d (if d s < init.2 then (s, d s) else init) t := rfl
    rw [hstep]
    refine le_trans (nearestScan_le_init d t _) ?_
    by_cases h : d s < init.2
    · rw [if_pos h]
      exact le_of_lt h
    · rw [if_neg h]

/-- The linear scan result is at most the distance of any scanned element. -/
lemma nearestScan_le_mem {α : Type} (d : α → ℚ) :
    ∀ (l : List α) (init : α × ℚ) (s : α), s ∈ l → (nearestScan d init l).2 ≤ d s
  | [], _, _, hmem => absurd hmem (List.not_mem_nil _)
  | s0 :: t, init, s, hmem => by
    have hstep : nearestScan d init (s0 :: t) =
        nearestScan d (if d s0 < init.2 then (s0, d s0) else init) t := rfl
    rw [hstep]
    rcases List.mem_cons.mp hmem with rfl | hmem2
    · refine le_trans (nearestScan_le_init d t _) ?_
      by_cases h : d s < init.2
      · rw [if_pos h]
      · rw [if_neg h]
        exact not_lt.mp h
    · exact nearestScan_le_mem d t _ s hmem2

/-- If the starting pair is consistent, the scan returns an element of the
scanned list (or the start) together with its distance. -/
lemma nearestScan_consistent {α : Type} (d : α → ℚ) :
    ∀ (l : List α) (init : α × ℚ), init.2 = d init.1 →
      (nearestScan d init l).2 = d (nearestScan d init l).1 ∧
      ((nearestScan d init l).1 = init.1 ∨ (nearestScan d init l).1 ∈ l)
  | [], _, h => ⟨h, Or.inl rfl⟩
  | s :: t, init, h => by
    have hstep : nearestScan d init (s :: t) =
        nearestScan d (if d s < init.2 then (s, d s) else init) t := rfl
    rw [hstep]
    by_cases hc : d s < init.2
    · rw [if_pos hc]
      obtain ⟨h1, h2⟩ := nearestScan_consistent d t (s, d s) rfl
      refine ⟨h1, ?_⟩
      rcases h2 with he | hm
      · exact Or.inr (he ▸ List.mem_cons_self s t)
      · exact Or.inr (List.mem_cons_of_mem s hm)
    · rw [if_neg hc]
      obtain ⟨h1, h2⟩ := nearestScan_consistent d t init h
      refine ⟨h1, ?_⟩
      rcases h2 with he | hm
      · exact Or.inl he
      · exact Or.inr (List.mem_cons_of_mem s hm)

/-- The scan distance is the running minimum of the scanned distances. -/
lemma nearestScan_snd_foldl_min {α : Type} (d : α → ℚ) :
    ∀ (l : List α) (init : α × ℚ),
      (nearestScan d init l).2 = l.foldl (fun acc s => min acc (d s)) init.2
  | [], _ => rfl
  | s :: t, init => by
    have hstep : nearestScan d init (s :: t) =
        nearestScan d (if d s < init.2 then (s, d s) else init) t := rfl
    rw [hstep, List.foldl_cons, nearestScan_snd_foldl_min d t _]
    congr 1
    by_cases h : d s < init.2
    · rw [if_pos h]
      exact (min_eq_right (le_of_lt h)).symm
    · rw [if_neg h]
      exact (min_eq_left (not_lt.mp h)).symm
/-- Everything a successful `recommendOne` guarantees: the returned
boarding stop is a nearest stop within the radius, the direction check
passed, and the ETA is the live-bus conversion when a bus is on the
route and the headway fallback otherwise. -/
lemma recommendOne_some_spec (dist : ℚ → ℚ → ℚ → ℚ → ℚ) (oLat oLng dLat dLng : ℚ)
    (buses : List BusRow) (route : RouteRow) (rec : Recommendation)
    (hsome : recommendOne dist oLat oLng dLat dLng buses route = some rec) :
    rec.route_id = route.id ∧
    rec.boardingDistKm ≤ MAX_BOARDING_DIST_KM ∧
    rec.boardingStop.stop_order < rec.alightingStop.stop_order ∧
    rec.boardingStop ∈ route.stops ∧
    (∀ s ∈ route.stops, rec.boardingDistKm ≤ dist oLat oLng s.latitude s.longitude) ∧
    (buses.filter (fun bu => bu.route_id == route.id) = [] →
      rec.hasLiveTracking = false ∧
      rec.estimatedArrivalMinutes = ((route.frequency_minutes.getD 15 : ℤ) : ℚ)) ∧
    (∀ b0 brest, buses.filter (fun bu => bu.route_id == route.id) = b0 :: brest →
      rec.hasLiveTracking = true ∧
      rec.estimatedArrivalMinutes =
        ((busEtaMinutes (brest.foldl
            (fun acc bu => min acc
              (dist rec.boardingStop.latitude rec.boardingStop.longitude bu.latitude bu.longitude))
            (dist rec.boardingStop.latitude rec.boardingStop.longitude
              b0.latitude b0.longitude)) : ℤ) : ℚ)) := by
  obtain ⟨rid, freq, stops⟩ := route
  rcases stops with _ | ⟨s0, rest⟩
  · exact absurd hsome (by simp [recommendOne])
  · simp only [recommendOne] at hsome
    by_cases hlen : (s0 :: rest).length < 2
    · rw [if_pos hlen] at hsome
      cases hsome
    rw [if_neg hlen] at hsome
    by_cases hbd : MAX_BOARDING_DIST_KM <
        (nearestScan (fun s => dist oLat oLng s.latitude s.longitude)
          (s0, dist oLat oLng s0.latitude s0.longitude) rest).2
    · rw [if_pos hbd] at hsome
      cases hsome
    rw [if_neg hbd] at hsome
    by_cases hord : (nearestScan (fun s => dist dLat dLng s.latitude s.longitude)
          ((s0 :: rest).getLastD s0,
           dist dLat dLng ((s0 :: rest).getLastD s0).latitude
             ((s0 :: rest).getLastD s0).longitude) (s0 :: rest)).1.stop_order ≤
        (nearestScan (fun s => dist oLat oLng s.latitude s.longitude)
          (s0, dist oLat oLng s0.latitude s0.longitude) rest).1.stop_order
    · rw [if_pos hord] at hsome
      cases hsome
    rw [if_neg hord] at hsome
    rcases hbuses : buses.filter (fun bu => bu.route_id == rid) with _ | ⟨b0, brest⟩ <;>
      rw [hbuses] at hsome <;> rw [Option.some_inj] at hsome <;> subst hsome
    · refine ⟨rfl, not_lt.mp hbd, not_le.mp hord, ?_, ?_, ?_, ?_⟩
      · rcases (nearestScan_consistent (fun s => dist oLat oLng s.latitude s.longitude)
            rest (s0, dist oLat oLng s0.latitude s0.longitude) rfl).2 with he | hm
        · exact he ▸ List.mem_cons_self s0 rest
        · exact List.mem_cons_of_mem s0 hm
      · intro s hs
        rcases List.mem_cons.mp hs with rfl | hs2
        · exact nearestScan_le_init _ rest _
        · exact nearestScan_le_mem _ rest _ s hs2
      · intro _
        exact ⟨rfl, rfl⟩
      · intro b0 brest hb
        rw [hbuses] at hb
        cases hb
    · refine ⟨rfl, not_lt.mp hbd, not_le.mp hord, ?_, ?_, ?_, ?_⟩
      · rcases (nearestScan_consistent (fun s => dist oLat oLng s.latitude s.longitude)
            rest (s0, dist oLat oLng s0.latitude s0.longitude) rfl).2 with he | hm
        · exact he ▸ List.mem_cons_self s0 rest
        · exact List.mem_cons_of_mem s0 hm
      · intro s hs
        rcases List.mem_cons.mp hs with rfl | hs2
        · exact nearestScan_le_init _ rest _
        · exact nearestScan_le_mem _ rest _ s hs2
      · intro hb
        rw [hbuses] at hb
        cases hb
      · intro b1 brest1 hb
        rw [hbuses] at hb
        injection hb with h1 h2
        subst h1
        subst h2
        refine ⟨rfl, ?_⟩
        have hmin := nearestScan_snd_foldl_min
          (fun bu => dist (nearestScan (fun s => dist oLat oLng s.latitude s.longitude)
              (s0, dist oLat oLng s0.latitude s0.longitude) rest).1.latitude
            (nearestScan (fun s => dist oLat oLng s.latitude s.longitude)
              (s0, dist oLat oLng s0.latitude s0.longitude) rest).1.longitude
            bu.latitude bu.longitude) brest
          (b0, dist (nearestScan (fun s => dist oLat oLng s.latitude s.longitude)
              (s0, dist oLat oLng s0.latitude s0.longitude) rest).1.latitude
            (nearestScan (fun s => dist oLat oLng s.latitude s.longitude)
              (s0, dist oLat oLng s0.latitude s0.longitude) rest).1.longitude
            b0.latitude b0.longitude)
        rw [hmin]
/-- Claim C4 (confirmed): a route is emitted only when its boarding stop
— a stop of the route at minimal distance from the origin — lies within
the 1 km radius and its order index is strictly below the alighting
stop's; in particular no recommendation ever has boarding order ≥
alighting order. -/
theorem recommendRoutes_directionality (dist : ℚ → ℚ → ℚ → ℚ → ℚ)
    (oLat oLng dLat dLng : ℚ) (routes : List RouteRow) (buses : List BusRow)
    (rec : Recommendation)
    (hmem : rec ∈ recommendRoutes dist oLat oLng dLat dLng routes buses) :
    rec.boardingDistKm ≤ MAX_BOARDING_DIST_KM ∧
    rec.boardingStop.stop_order < rec.alightingStop.stop_order ∧
    ∃ route ∈ routes, rec.route_id = route.id ∧ rec.boardingStop ∈ route.stops ∧
      ∀ s ∈ route.stops, rec.boardingDistKm ≤ dist oLat oLng s.latitude s.longitude := by
  rw [recommendRoutes, List.mem_insertionSort, List.mem_filterMap] at hmem
  obtain ⟨route, hroute, hsome⟩ := hmem
  obtain ⟨h1, h2, h3, h4, h5, _, _⟩ :=
    recommendOne_some_spec dist oLat oLng dLat dLng buses route rec hsome
  exact ⟨h2, h3, route, hroute, h1, h4, h5⟩

/-- The constant-zero distance function used by the witnesses. -/
def distZero : ℚ → ℚ → ℚ → ℚ → ℚ := fun _ _ _ _ => 0

/-- First stop of the witness route. -/
def stopA : StopRow := { id := 1, latitude := 1, longitude := 1, stop_order := 1 }

/-- Second stop of the witness route. -/
def stopB : StopRow := { id := 2, latitude := 2, longitude := 2, stop_order := 2 }

/-- Witness route with two stops and a 12-minute headway. -/
def routeFix : RouteRow := { id := 3, frequency_minutes := some 12, stops := [stopA, stopB] }

/-- The recommendation `recommendRoutes` emits for `routeFix` under
`distZero` with no live buses. -/
def recFix : Recommendation :=
  { route_id := 3, boardingStop := stopA, alightingStop := stopB,
    boardingDistKm := 0, alightingDistKm := 0, segment := [stopA, stopB],
    activeBus := none, hasLiveTracking := false,
    estimatedArrivalMinutes := ((routeFix.frequency_minutes.getD 15 : ℤ) : ℚ) }

/-- Witness for `recommendRoutes_directionality`. -/
theorem recommendRoutes_directionality_witness :
    recFix.boardingDistKm ≤ MAX_BOARDING_DIST_KM ∧
    recFix.boardingStop.stop_order < recFix.alightingStop.stop_order ∧
    ∃ route ∈ [routeFix], recFix.route_id = route.id ∧ recFix.boardingStop ∈ route.stops ∧
      ∀ s ∈ route.stops, recFix.boardingDistKm ≤ distZero 0 0 s.latitude s.longitude :=
  recommendRoutes_directionality distZero 0 0 0 0 [routeFix] [] recFix (by decide)
instance recommendationEtaTotal : IsTotal Recommendation
    (fun a b => a.estimatedArrivalMinutes ≤ b.estimatedArrivalMinutes) :=
  ⟨fun _ _ => le_total _ _⟩

instance recommendationEtaTrans : IsTrans Recommendation
    (fun a b => a.estimatedArrivalMinutes ≤ b.estimatedArrivalMinutes) :=
  ⟨fun _ _ _ h1 h2 => le_trans h1 h2⟩

/-- Claim C5 (confirmed): the ETA of an emitted recommendation is the
nearest live vehicle's distance to the boarding stop converted at the
fixed 20 km/h speed when the route has a live vehicle, and the route's
scheduled headway otherwise; whether a route is emitted does not depend
on the live buses at all, and the emitted list is sorted by ascending
ETA. -/
theorem recommendRoutes_eta (dist : ℚ → ℚ → ℚ → ℚ → ℚ) (oLat oLng dLat dLng : ℚ)
    (routes : List RouteRow) (buses : List BusRow) :
    (∀ route rec, recommendOne dist oLat oLng dLat dLng buses route = some rec →
      (buses.filter (fun bu => bu.route_id == route.id) = [] →
        rec.hasLiveTracking = false ∧
        ∀ f, route.frequency_minutes = some f → rec.estimatedArrivalMinutes = ((f : ℤ) : ℚ)) ∧
      (∀ b0 brest, buses.filter (fun bu => bu.route_id == route.id) = b0 :: brest →
        rec.hasLiveTracking = true ∧
        rec.estimatedArrivalMinutes =
          ((busEtaMinutes (brest.foldl
              (fun acc bu => min acc (dist rec.boardingStop.latitude
                rec.boardingStop.longitude bu.latitude bu.longitude))
              (dist rec.boardingStop.latitude rec.boardingStop.longitude
                b0.latitude b0.longitude)) : ℤ) : ℚ))) ∧
    (∀ route : RouteRow, (recommendOne dist oLat oLng dLat dLng buses route).isSome =
      (recommendOne dist oLat oLng dLat dLng [] route).isSome) ∧
    (recommendRoutes dist oLat oLng dLat dLng routes buses).Sorted
      (fun a b => a.estimatedArrivalMinutes ≤ b.estimatedArrivalMinutes) := by
  refine ⟨?_, ?_, ?_⟩
  · intro route rec hsome
    obtain ⟨_, _, _, _, _, h6, h7⟩ :=
      recommendOne_some_spec dist oLat oLng dLat dLng buses route rec hsome
    constructor
    · intro hempty
      obtain ⟨ha, hb⟩ := h6 hempty
      refine ⟨ha, fun f hf => ?_⟩
      rw [hb, hf]
      rfl
    · exact h7
  · intro route
    obtain ⟨rid, freq, stops⟩ := route
    rcases stops with _ | ⟨s0, rest⟩
    · rfl
    · by_cases hlen : (s0 :: rest).length < 2
      · simp only [recommendOne]
        rw [if_pos hlen, if_pos hlen]
      · by_cases hbd : MAX_BOARDING_DIST_KM <
            (nearestScan (fun s => dist oLat oLng s.latitude s.longitude)
              (s0, dist oLat oLng s0.latitude s0.longitude) rest).2
        · simp only [recommendOne]
          rw [if_neg hlen, if_neg hlen, if_pos hbd, if_pos hbd]
        · by_cases hord : (nearestScan (fun s => dist dLat dLng s.latitude s.longitude)
              ((s0 :: rest).getLastD s0,
               dist dLat dLng ((s0 :: rest).getLastD s0).latitude
                 ((s0 :: rest).getLastD s0).longitude) (s0 :: rest)).1.stop_order ≤
            (nearestScan (fun s => dist oLat oLng s.latitude s.longitude)
              (s0, dist oLat oLng s0.latitude s0.longitude) rest).1.stop_order
          · simp only [recommendOne]
            rw [if_neg hlen, if_neg hlen, if_neg hbd, if_neg hbd, if_pos hord, if_pos hord]
          · simp only [recommendOne]
            rw [if_neg hlen, if_neg hlen, if_neg hbd, if_neg hbd, if_neg hord, if_neg hord]
            rcases hfb : buses.filter (fun bu => bu.route_id == rid) with _ | ⟨b0, brest⟩ <;>
              simp [hfb, List.filter_nil]
  · rw [recommendRoutes]
    exact List.sorted_insertionSort _ _

/-- Witness for `recommendRoutes_eta`: `routeFix` has no live bus, so its
ETA is its 12-minute headway, and the singleton output is sorted. -/
theorem recommendRoutes_eta_witness :
    (recFix.hasLiveTracking = false ∧
      ∀ f, routeFix.frequency_minutes = some f →
        recFix.estimatedArrivalMinutes = ((f : ℤ) : ℚ)) ∧
    (recommendRoutes distZero 0 0 0 0 [routeFix] []).Sorted
      (fun a b => a.estimatedArrivalMinutes ≤ b.estimatedArrivalMinutes) :=
  ⟨((recommendRoutes_eta distZero 0 0 0 0 [routeFix] []).1 routeFix recFix (by decide)).1 rfl,
   (recommendRoutes_eta distZero 0 0 0 0 [routeFix] []).2.2⟩
/-! ## Equivalence of the consensus fold with its specification -/

/-- One more point extends the first-appearance key list only when its
cell is new. -/
lemma keysInOrder_snoc (ps : List TracePoint) (p : TracePoint) :
    keysInOrder (ps ++ [p]) =
      if cellKey p ∈ keysInOrder ps then keysInOrder ps
      else keysInOrder ps ++ [cellKey p] := by
  simp [keysInOrder, List.foldl_append]

/-- A key is listed exactly when some point of the sequence falls in its
cell. -/
lemma mem_keysInOrder (k : ℤ × ℤ) (ps : List TracePoint) :
    k ∈ keysInOrder ps ↔ ∃ q ∈ ps, cellKey q = k := by
  have general : ∀ (l : List TracePoint) (acc : List (ℤ × ℤ)),
      k ∈ l.foldl (fun acc p => if cellKey p ∈ acc then acc else acc ++ [cellKey p]) acc ↔
        k ∈ acc ∨ ∃ q ∈ l, cellKey q = k := by
    intro l
    induction l with
    | nil => simp
    | cons p t ih =>
      intro acc
      rw [List.foldl_cons]
      by_cases hp : cellKey p ∈ acc
      · rw [if_pos hp, ih]
        constructor
        · rintro (h | ⟨q, hq, hk⟩)
          · exact Or.inl h
          · exact Or.inr ⟨q, List.mem_cons_of_mem p hq, hk⟩
        · rintro (h | ⟨q, hq, hk⟩)
          · exact Or.inl h
          · rcases List.mem_cons.mp hq with rfl | hq2
            · exact Or.inl (hk ▸ hp)
            · exact Or.inr ⟨q, hq2, hk⟩
      · rw [if_neg hp, ih]
        constructor
        · rintro (h | ⟨q, hq, hk⟩)
          · rcases List.mem_append.mp h with h2 | h2
            · exact Or.inl h2
            · exact Or.inr ⟨p, List.mem_cons_self p t, (List.mem_singleton.mp h2).symm⟩
          · exact Or.inr ⟨q, List.mem_cons_of_mem p hq, hk⟩
        · rintro (h | ⟨q, hq, hk⟩)
          · exact Or.inl (List.mem_append.mpr (Or.inl h))
          · rcases List.mem_cons.mp hq with rfl | hq2
            · exact Or.inl (List.mem_append.mpr (Or.inr (List.mem_singleton.mpr hk.symm)))
            · exact Or.inr ⟨q, hq2, hk⟩
  rw [keysInOrder]
  rw [general ps []]
  simp

/-- The first-appearance key list never repeats a key. -/
lemma keysInOrder_nodup (ps : List TracePoint) : (keysInOrder ps).Nodup := by
  have general : ∀ (l : List TracePoint) (acc : List (ℤ × ℤ)), acc.Nodup →
      (l.foldl (fun acc p => if cellKey p ∈ acc then acc else acc ++ [cellKey p]) acc).Nodup := by
    intro l
    induction l with
    | nil => intro acc h; exact h
    | cons p t ih =>
      intro acc hacc
      rw [List.foldl_cons]
      by_cases hp : cellKey p ∈ acc
      · rw [if_pos hp]
        exact ih acc hacc
      · rw [if_neg hp]
        refine ih _ ?_
        rw [List.nodup_append]
        exact ⟨hacc, List.nodup_singleton _,
          fun a ha hb => hp ((List.mem_singleton.mp hb) ▸ ha)⟩
  exact general ps [] List.nodup_nil

/-- Appending points only ever appends to a cluster. -/
lemma cluster_snoc (k : ℤ × ℤ) (ps : List TracePoint) (p : TracePoint) :
    cluster k (ps ++ [p]) =
      cluster k ps ++ (if cellKey p = k then [p] else []) := by
  by_cases h : cellKey p = k
  · simp [cluster, List.filter_append, h]
  · simp [cluster, List.filter_append, h]
/-- `findIdx` ignores a suffix when the prefix already contains a hit. -/
lemma findIdx_append_of_any {α : Type} (p : α → Bool) :
    ∀ (l1 l2 : List α), l1.any p = true → (l1 ++ l2).findIdx p = l1.findIdx p
  | [], _, h => by simp at h
  | a :: t, l2, h => by
    rw [List.cons_append, List.findIdx_cons, List.findIdx_cons]
    cases hp : p a with
    | true => rfl
    | false =>
      have ht : t.any p = true := by
        rcases List.any_eq_true.mp h with ⟨x, hx, hpx⟩
        rcases List.mem_cons.mp hx with rfl | hx2
        · rw [hp] at hpx
          cases hpx
        · exact List.any_eq_true.mpr ⟨x, hx2, hpx⟩
      simp only [cond_false]
      rw [findIdx_append_of_any p t l2 ht]

/-- `findIdx` passes over a prefix with no hit. -/
lemma findIdx_append_of_none {α : Type} (p : α → Bool) :
    ∀ (l1 l2 : List α), l1.any p = false →
      (l1 ++ l2).findIdx p = l1.length + l2.findIdx p
  | [], _, _ => by simp
  | a :: t, l2, h => by
    rw [List.cons_append, List.findIdx_cons]
    have hp : p a = false := by
      cases hpa : p a
      · rfl
      · rw [List.any_cons, hpa] at h
        simp at h
    have ht : t.any p = false := by
      rw [List.any_cons, hp] at h
      simpa using h
    rw [hp]
    simp only [cond_false]
    rw [findIdx_append_of_none p t l2 ht, List.length_cons]
    omega

/-- A key occurring in the sequence keeps its first index when the
sequence grows. -/
lemma firstIdx_snoc_of_mem (ps : List TracePoint) (p : TracePoint) (k : ℤ × ℤ)
    (h : ∃ q ∈ ps, cellKey q = k) :
    firstIdx (ps ++ [p]) k = firstIdx ps k := by
  unfold firstIdx
  refine findIdx_append_of_any _ ps [p] ?_
  rcases h with ⟨q, hq, hk⟩
  exact List.any_eq_true.mpr ⟨q, hq, by simp [hk]⟩

/-- The first index of a fresh cell is the length of the old sequence. -/
lemma firstIdx_snoc_of_new (ps : List TracePoint) (p : TracePoint)
    (h : ¬∃ q ∈ ps, cellKey q = cellKey p) :
    firstIdx (ps ++ [p]) (cellKey p) = ps.length := by
  unfold firstIdx
  rw [findIdx_append_of_none]
  · simp [List.findIdx_cons]
  · rw [List.any_eq_false]
    intro q hq
    simp only [decide_eq_true_eq]
    exact fun hk => h ⟨q, hq, hk⟩

/-- The first index of an occurring key is a real position. -/
lemma firstIdx_lt_length (ps : List TracePoint) (k : ℤ × ℤ)
    (h : ∃ q ∈ ps, cellKey q = k) : firstIdx ps k < ps.length := by
  unfold firstIdx
  apply List.findIdx_lt_length_of_exists
  rcases h with ⟨q, hq, hk⟩
  exact ⟨q, hq, by simp [hk]⟩
/-- A point with a fresh cell key is appended as a new singleton group. -/
lemma addPoint_not_mem :
    ∀ (m : List ((ℤ × ℤ) × Group)) (idx : ℕ) (p : TracePoint),
      (∀ e ∈ m, e.1 ≠ cellKey p) →
      addPoint m idx p =
        m ++ [(cellKey p, { sumLat := p.lat, sumLng := p.lng, count := 1, firstIndex := idx })]
  | [], _, _, _ => rfl
  | (k, g) :: rest, idx, p, h => by
    rw [addPoint, if_neg (h (k, g) (List.mem_cons_self _ _))]
    rw [addPoint_not_mem rest idx p (fun e he => h e (List.mem_cons_of_mem _ he))]
    rfl

/-- A point whose cell key is already grouped updates exactly that group
in place. -/
lemma addPoint_map_keys :
    ∀ (keys : List (ℤ × ℤ)) (f : (ℤ × ℤ) → Group) (idx : ℕ) (p : TracePoint),
      keys.Nodup → cellKey p ∈ keys →
      addPoint (keys.map (fun k => (k, f k))) idx p =
        keys.map (fun k => (k,
          if k = cellKey p then
            { f k with sumLat := (f k).sumLat + p.lat, sumLng := (f k).sumLng + p.lng,
                       count := (f k).count + 1 }
          else f k))
  | [], _, _, _, _, hmem => absurd hmem (List.not_mem_nil _)
  | k0 :: krest, f, idx, p, hnd, hmem => by
    rw [List.map_cons, List.map_cons, addPoint]
    by_cases hk : k0 = cellKey p
    · rw [if_pos hk, if_pos hk]
      congr 1
      have hnotin : cellKey p ∉ krest := hk ▸ (List.nodup_cons.mp hnd).1
      refine (List.map_congr_left ?_).symm
      intro a ha
      have hane : ¬ a = cellKey p := fun he => hnotin (by rw [← he]; exact ha)
      rw [if_neg hane]
    · rw [if_neg hk, if_neg hk]
      congr 1
      have hmem2 : cellKey p ∈ krest := by
        rcases List.mem_cons.mp hmem with he | h2
        · exact absurd he.symm hk
        · exact h2
      exact addPoint_map_keys krest f idx p (List.nodup_cons.mp hnd).2 hmem2
/-- A new point of a different cell leaves a group untouched. -/
lemma groupSpec_snoc_other (ps : List TracePoint) (p : TracePoint) (k : ℤ × ℤ)
    (hne : cellKey p ≠ k) (hmem : ∃ q ∈ ps, cellKey q = k) :
    groupSpec (ps ++ [p]) k = groupSpec ps k := by
  unfold groupSpec
  rw [cluster_snoc, if_neg hne, List.append_nil, firstIdx_snoc_of_mem ps p k hmem]

/-- A new point of the same cell adds its coordinates to the group. -/
lemma groupSpec_snoc_same (ps : List TracePoint) (p : TracePoint) (k : ℤ × ℤ)
    (heq : cellKey p = k) (hmem : ∃ q ∈ ps, cellKey q = k) :
    groupSpec (ps ++ [p]) k =
      { groupSpec ps k with
        sumLat := (groupSpec ps k).sumLat + p.lat,
        sumLng := (groupSpec ps k).sumLng + p.lng,
        count := (groupSpec ps k).count + 1 } := by
  unfold groupSpec
  rw [cluster_snoc, if_pos heq, firstIdx_snoc_of_mem ps p k hmem]
  simp

/-- A point with a fresh cell forms a singleton group whose first index is
the old length. -/
lemma groupSpec_snoc_new (ps : List TracePoint) (p : TracePoint)
    (hnew : ¬∃ q ∈ ps, cellKey q = cellKey p) :
    groupSpec (ps ++ [p]) (cellKey p) =
      { sumLat := p.lat, sumLng := p.lng, count := 1, firstIndex := ps.length } := by
  have hcl : cluster (cellKey p) ps = [] := by
    rw [cluster, List.filter_eq_nil_iff]
    intro q hq
    simp only [decide_eq_true_eq]
    exact fun hk => hnew ⟨q, hq, hk⟩
  unfold groupSpec
  rw [cluster_snoc, if_pos rfl, hcl, List.nil_append, firstIdx_snoc_of_new ps p hnew]
  simp

/-- The `forEach` accumulator equals the specification: the running index
is the number of processed points, and the group map lists, in order of
first appearance, each cluster's running sums, size and first index. -/
lemma buildState_eq (ps : List TracePoint) :
    buildState ps = (ps.length, (keysInOrder ps).map (fun k => (k, groupSpec ps k))) := by
  induction ps using List.reverseRecOn with
  | nil => rfl
  | append_singleton ps p ih =>
    have hstep : buildState (ps ++ [p]) =
        ((buildState ps).1 + 1, addPoint (buildState ps).2 (buildState ps).1 p) := by
      unfold buildState
      rw [List.foldl_append]
      rfl
    have hlen : (ps ++ [p]).length = ps.length + 1 := by simp
    rw [hstep, ih, hlen]
    simp only []
    by_cases hmem : cellKey p ∈ keysInOrder ps
    · rw [addPoint_map_keys (keysInOrder ps) (groupSpec ps) ps.length p
        (keysInOrder_nodup ps) hmem]
      rw [keysInOrder_snoc, if_pos hmem]
      congr 1
      refine List.map_congr_left ?_
      intro k hk
      have hkmem : ∃ q ∈ ps, cellKey q = k := (mem_keysInOrder k ps).mp hk
      by_cases hkc : k = cellKey p
      · rw [if_pos hkc]
        rw [groupSpec_snoc_same ps p k hkc.symm hkmem]
      · rw [if_neg hkc]
        rw [groupSpec_snoc_other ps p k (fun h => hkc h.symm) hkmem]
    · have hno : ∀ e ∈ (keysInOrder ps).map (fun k => (k, groupSpec ps k)),
          e.1 ≠ cellKey p := by
        intro e he
        rw [List.mem_map] at he
        obtain ⟨k, hk, rfl⟩ := he
        simp only []
        exact fun hek => hmem (hek ▸ hk)
      rw [addPoint_not_mem _ ps.length p hno]
      rw [keysInOrder_snoc, if_neg hmem, List.map_append]
      have hmap : List.map (fun k => (k, groupSpec (ps ++ [p]) k)) (keysInOrder ps) =
          List.map (fun k => (k, groupSpec ps k)) (keysInOrder ps) := by
        refine List.map_congr_left ?_
        intro k hk
        have hkmem : ∃ q ∈ ps, cellKey q = k := (mem_keysInOrder k ps).mp hk
        have hne : cellKey p ≠ k := fun h => hmem (h ▸ hk)
        rw [groupSpec_snoc_other ps p k hne hkmem]
      have hnew : ¬∃ q ∈ ps, cellKey q = cellKey p := fun hex =>
        hmem ((mem_keysInOrder (cellKey p) ps).mpr hex)
      rw [hmap, List.map_singleton, groupSpec_snoc_new ps p hnew]
/-- Keys listed in order of first appearance have strictly increasing
first indices. -/
lemma keysInOrder_pairwise_firstIdx (ps : List TracePoint) :
    (keysInOrder ps).Pairwise (fun k1 k2 => firstIdx ps k1 < firstIdx ps k2) := by
  induction ps using List.reverseRecOn with
  | nil => simp [keysInOrder]
  | append_singleton ps p ih =>
    rw [keysInOrder_snoc]
    by_cases hmem : cellKey p ∈ keysInOrder ps
    · rw [if_pos hmem]
      refine List.Pairwise.imp_of_mem ?_ ih
      intro a b ha hb hr
      rw [firstIdx_snoc_of_mem ps p a ((mem_keysInOrder a ps).mp ha),
          firstIdx_snoc_of_mem ps p b ((mem_keysInOrder b ps).mp hb)]
      exact hr
    · rw [if_neg hmem]
      rw [List.pairwise_append]
      refine ⟨List.Pairwise.imp_of_mem ?_ ih, List.pairwise_singleton _ _, ?_⟩
      · intro a b ha hb hr
        rw [firstIdx_snoc_of_mem ps p a ((mem_keysInOrder a ps).mp ha),
            firstIdx_snoc_of_mem ps p b ((mem_keysInOrder b ps).mp hb)]
        exact hr
      · intro a ha b hb
        rw [List.mem_singleton.mp hb]
        rw [firstIdx_snoc_of_mem ps p a ((mem_keysInOrder a ps).mp ha),
            firstIdx_snoc_of_new ps p
              (fun hex => hmem ((mem_keysInOrder (cellKey p) ps).mpr hex))]
        exact firstIdx_lt_length ps a ((mem_keysInOrder a ps).mp ha)

/-- The source fold, sort and centroid pipeline computes exactly the
spec's description: one centroid per 4-decimal cluster, ordered by
first appearance, whenever the 5-trace threshold is met. -/
lemma calculateSuggestedGeometry_eq_spec (traces : List (List TracePoint))
    (h5 : 5 ≤ traces.length) :
    calculateSuggestedGeometry traces = some (specSuggestedGeometry traces.flatten) := by
  unfold calculateSuggestedGeometry
  rw [if_neg (not_lt.mpr h5)]
  simp only []
  have hbuild : buildGroups traces.flatten =
      (keysInOrder traces.flatten).map (fun k => (k, groupSpec traces.flatten k)) := by
    unfold buildGroups
    rw [buildState_eq]
  rw [hbuild, List.map_map]
  have hmapeq : ((keysInOrder traces.flatten).map
      (Prod.snd ∘ fun k => (k, groupSpec traces.flatten k))) =
      (keysInOrder traces.flatten).map (fun k => groupSpec traces.flatten k) := rfl
  rw [hmapeq]
  have hsorted : List.Sorted (fun a b : Group => a.firstIndex ≤ b.firstIndex)
      ((keysInOrder traces.flatten).map (fun k => groupSpec traces.flatten k)) := by
    rw [List.Sorted, List.pairwise_map]
    exact (keysInOrder_pairwise_firstIdx traces.flatten).imp (fun h => le_of_lt h)
  rw [List.Sorted.insertionSort_eq hsorted, List.map_map]
  rfl

/-- Claim C9 (confirmed): whenever the batch fires, the suggested
geometry equals the spec's description — flatten the pending traces in
trace order, group points by coordinates rounded to 4 decimal places,
take each group's centroid (mean latitude and longitude of its
points), and order the centroids by each group's first point of
appearance in the flattened sequence. -/
theorem calculateSuggestedGeometry_matches_spec (traces : List (List TracePoint))
    (h5 : 5 ≤ traces.length) :
    calculateSuggestedGeometry traces = some (specSuggestedGeometry traces.flatten) :=
  calculateSuggestedGeometry_eq_spec traces h5

/-- Witness for `calculateSuggestedGeometry_matches_spec`: five one-point
traces. -/
theorem calculateSuggestedGeometry_matches_spec_witness :
    calculateSuggestedGeometry
        [[{ lat := 1, lng := 2 }], [{ lat := 3, lng := 4 }], [{ lat := 1, lng := 2 }],
         [{ lat := 3, lng := 4 }], [{ lat := 5, lng := 6 }]] =
      some (specSuggestedGeometry
        ([[{ lat := 1, lng := 2 }], [{ lat := 3, lng := 4 }], [{ lat := 1, lng := 2 }],
          [{ lat := 3, lng := 4 }], [{ lat := 5, lng := 6 }]] : List (List TracePoint)).flatten) :=
  calculateSuggestedGeometry_matches_spec
    [[{ lat := 1, lng := 2 }], [{ lat := 3, lng := 4 }], [{ lat := 1, lng := 2 }],
     [{ lat := 3, lng := 4 }], [{ lat := 5, lng := 6 }]] (by decide)

end MiBus
